import Mathlib

/-!
Verification development for the Elitewalls job-costing dashboard.

The definitions below are a shallow embedding of the repository's data
layer (src/src/google_sheets.py, src/src/demo_data.py, src/src/utils.py)
and of the per-page financial computations (Home.py, pages/1_Dashboard.py,
pages/6_Reports.py).  Python floats are modelled as exact rationals,
Python strings as Lean strings, and cell values that may be missing,
null, or malformed as an explicit inductive type.
-/

namespace Elitewalls

/-- A value held in a numeric cell of a record, as Python sees it:
a number, a nonempty string that float() parses, a nonempty string that
float() rejects, the empty string, or None.  A missing field is modelled
by wrapping in Option. -/
inductive PyVal where
  | num (q : ℚ)
  | numStr (q : ℚ)
  | badStr
  | emptyStr
  | null
  deriving DecidableEq, Repr

/-- Python expression float(c.get(key, 0) or 0) used by
get_job_cost_totals in both store implementations: a missing field
defaults to 0, a falsy value (0, None, empty string) is replaced by 0,
and float() raises on a non-numeric nonempty string. -/
def pyFloatOrZero : Option PyVal → Except Unit ℚ
  | none => Except.ok 0
  | some (PyVal.num q) => Except.ok q
  | some (PyVal.numStr q) => Except.ok q
  | some PyVal.badStr => Except.error ()
  | some PyVal.emptyStr => Except.ok 0
  | some PyVal.null => Except.ok 0

/-- The value a cell contributes to a sum when coercion succeeds:
its numeric value for a number or a parseable string, 0 otherwise. -/
def valOr0 : Option PyVal → ℚ
  | some (PyVal.num q) => q
  | some (PyVal.numStr q) => q
  | _ => 0

/-- A cell on which pyFloatOrZero does not raise: anything except a
non-numeric nonempty string. -/
def cleanVal : Option PyVal → Bool
  | some PyVal.badStr => false
  | _ => true

/-- Column-wise coercion pd.to_numeric(col, errors = coerce).fillna(0)
applied by the Google-Sheets fetch layer (google_sheets.py
get_weekly_costs_by_job): parseable values become numbers, everything
else becomes 0; an absent field stays absent. -/
def gsCoerceVal : Option PyVal → Option PyVal
  | none => none
  | some (PyVal.num q) => some (PyVal.num q)
  | some (PyVal.numStr q) => some (PyVal.num q)
  | some PyVal.badStr => some (PyVal.num 0)
  | some PyVal.emptyStr => some (PyVal.num 0)
  | some PyVal.null => some (PyVal.num 0)

/-- Python int(float(v)) on an exact rational: truncation toward zero. -/
def pyInt (q : ℚ) : ℤ := Int.tdiv q.num q.den

/-- A weekly cost record as stored (WeeklyCosts sheet row or demo dict):
identifier fields are strings, the seven actual fields are raw cell
values that may be missing. -/
structure RawCostEntry where
  id : String
  job_id : String
  week_ending : String
  insurance_actual : Option PyVal
  labor_actual : Option PyVal
  stamps_actual : Option PyVal
  material_actual : Option PyVal
  subs_bond_actual : Option PyVal
  equipment_actual : Option PyVal
  man_days_actual : Option PyVal
  notes : String
  created_at : String
  deriving DecidableEq, Repr

/-- Every numeric field of the entry is clean (pyFloatOrZero succeeds). -/
def cleanEntry (c : RawCostEntry) : Bool :=
  cleanVal c.insurance_actual && cleanVal c.labor_actual &&
  cleanVal c.stamps_actual && cleanVal c.material_actual &&
  cleanVal c.subs_bond_actual && cleanVal c.equipment_actual &&
  cleanVal c.man_days_actual

/-- Google-Sheets fetch-layer coercion applied to the seven numeric
columns of a weekly cost row (google_sheets.py get_weekly_costs_by_job,
lines 351-354). -/
def gsCoerceEntry (c : RawCostEntry) : RawCostEntry :=
  { c with
    insurance_actual := gsCoerceVal c.insurance_actual
    labor_actual := gsCoerceVal c.labor_actual
    stamps_actual := gsCoerceVal c.stamps_actual
    material_actual := gsCoerceVal c.material_actual
    subs_bond_actual := gsCoerceVal c.subs_bond_actual
    equipment_actual := gsCoerceVal c.equipment_actual
    man_days_actual := gsCoerceVal c.man_days_actual }

/-- A customer record (the fields the claims depend on). -/
structure Customer where
  id : String
  name : String
  is_active : Bool
  deriving DecidableEq, Repr

/-- A job record.  The monetary and budget fields are the float-or-zero
coerced values the pages work with (get_all_jobs in google_sheets.py
coerces them on fetch; the demo store holds numbers already). -/
structure Job where
  id : String
  job_number : String
  job_name : String
  customer_id : String
  contract_amount : ℚ
  pending_change_orders : ℚ
  approved_change_orders : ℚ
  status : String
  budget_insurance : ℚ
  budget_labor : ℚ
  budget_stamps : ℚ
  budget_material : ℚ
  budget_subs_bond : ℚ
  budget_equipment : ℚ
  budget_man_days : ℚ
  deriving DecidableEq, Repr

/-- Sum of the six category budget fields, as computed inline on
Home.py (lines 157-164) and 1_Dashboard.py (lines 40-47). -/
def totalBudget (j : Job) : ℚ :=
  j.budget_insurance + j.budget_labor + j.budget_stamps +
  j.budget_material + j.budget_subs_bond + j.budget_equipment

/-- The financial row Home.py computes for one active job
(Home.py lines 154-183). -/
structure HomeJobRow where
  total_revenue : ℚ
  total_budget : ℚ
  total_cost : ℚ
  profit : ℚ
  profit_pct : ℚ
  budget_pct : ℚ
  status_indicator : String
  deriving DecidableEq, Repr

/-- Home.py active-jobs table row: revenue is contract plus approved
change orders; profit is guarded to 0 when revenue is not positive;
margin and budget-used percentages are guarded to 0 on zero
denominators; the status dot buckets budget-used at 90 and 100. -/
def homeJobRow (job : Job) (totals_total : ℚ) : HomeJobRow :=
  let total_revenue := job.contract_amount + job.approved_change_orders
  let total_budget := totalBudget job
  let total_cost := totals_total
  let profit := if total_revenue > 0 then total_revenue - total_cost else 0
  let profit_pct := if total_revenue > 0 then profit / total_revenue * 100 else 0
  let budget_pct := if total_budget > 0 then total_cost / total_budget * 100 else 0
  let status_indicator :=
    if budget_pct ≤ 90 then "🟢" else if budget_pct ≤ 100 then "🟡" else "🔴"
  ⟨total_revenue, total_budget, total_cost, profit, profit_pct, budget_pct,
   status_indicator⟩

/-- The metrics record 1_Dashboard.py computes for one job
(1_Dashboard.py lines 38-62). -/
structure DashboardJobMetrics where
  revenue : ℚ
  budget : ℚ
  cost : ℚ
  profit : ℚ
  profit_margin : ℚ
  budget_used : ℚ
  deriving DecidableEq, Repr

/-- 1_Dashboard.py job_metrics entry: profit is total_revenue minus
total_cost with no zero-revenue guard, while the margin and budget-used
percentages are guarded to 0 on zero denominators. -/
def dashboardJobMetrics (job : Job) (totals_total : ℚ) : DashboardJobMetrics :=
  let total_budget := totalBudget job
  let total_revenue := job.contract_amount + job.approved_change_orders
  let total_cost := totals_total
  ⟨total_revenue, total_budget, total_cost,
   total_revenue - total_cost,
   if total_revenue > 0 then (total_revenue - total_cost) / total_revenue * 100 else 0,
   if total_budget > 0 then total_cost / total_budget * 100 else 0⟩

/-- utils.py get_variance_indicator on numeric inputs: empty string when
budget is 0, red dot when more than 10 percent over budget, yellow dot
when over by at most 10 percent, green dot otherwise. -/
def get_variance_indicator (actual budget : ℚ) : String :=
  if budget = 0 then ""
  else
    let variance := actual - budget
    if variance > budget * (1 / 10) then "🔴"
    else if variance > 0 then "🟡"
    else "🟢"

/-- The totals dict built by get_job_cost_totals. -/
structure CostTotals where
  insurance : ℚ
  labor : ℚ
  stamps : ℚ
  material : ℚ
  subs_bond : ℚ
  equipment : ℚ
  man_days : ℤ
  total : ℚ
  deriving DecidableEq, Repr

/-- Python sum(float(c.get(key, 0) or 0) for c in costs): adds the
coerced cells left to right, raising at the first non-numeric nonempty
string. -/
def sumFloats : List (Option PyVal) → Except Unit ℚ
  | [] => Except.ok 0
  | v :: vs => do
      let x ← pyFloatOrZero v
      let r ← sumFloats vs
      Except.ok (x + r)

/-- Python sum(int(float(c.get(key, 0) or 0)) for c in costs): per-entry
truncation to an integer, then summed. -/
def sumManDays : List (Option PyVal) → Except Unit ℤ
  | [] => Except.ok 0
  | v :: vs => do
      let x ← pyFloatOrZero v
      let r ← sumManDays vs
      Except.ok (pyInt x + r)

/-- get_job_cost_totals (demo_data.py lines 274-292, google_sheets.py
lines 408-430; the function body is the same in both stores): an empty
entry list returns all-zero totals; otherwise each category is the sum
of its actual column, man_days is the sum of per-entry integer
truncations, and total adds the six categories (man_days excluded). -/
def get_job_cost_totals (costs : List RawCostEntry) : Except Unit CostTotals :=
  if costs.isEmpty then Except.ok ⟨0, 0, 0, 0, 0, 0, 0, 0⟩
  else do
    let insurance ← sumFloats (costs.map (fun c => c.insurance_actual))
    let labor ← sumFloats (costs.map (fun c => c.labor_actual))
    let stamps ← sumFloats (costs.map (fun c => c.stamps_actual))
    let material ← sumFloats (costs.map (fun c => c.material_actual))
    let subs_bond ← sumFloats (costs.map (fun c => c.subs_bond_actual))
    let equipment ← sumFloats (costs.map (fun c => c.equipment_actual))
    let man_days ← sumManDays (costs.map (fun c => c.man_days_actual))
    Except.ok ⟨insurance, labor, stamps, material, subs_bond, equipment, man_days,
      insurance + labor + stamps + material + subs_bond + equipment⟩

/-- Key of a weekly cost row matches the pair (j, w) under the string
comparison str(row field) == str(argument) used throughout the stores. -/
def keyMatches (j w : String) (c : RawCostEntry) : Bool :=
  c.job_id == j && c.week_ending == w

/-- Stable insertion of a row into a list sorted by week_ending
descending (the row goes after every row with a greater-or-equal key). -/
def insertWeekDesc (c : RawCostEntry) : List RawCostEntry → List RawCostEntry
  | [] => [c]
  | d :: ds =>
      if c.week_ending < d.week_ending then d :: insertWeekDesc c ds
      else c :: d :: ds

/-- Stable sort by week_ending descending, as done by
sorted(costs, key week_ending, reverse) in demo_data.py and
df.sort_values(week_ending, ascending false) in google_sheets.py. -/
def sortByWeekDesc (l : List RawCostEntry) : List RawCostEntry :=
  l.foldr insertWeekDesc []

/-- The whole persisted state: the three collections the claims touch. -/
structure Store where
  customers : List Customer
  jobs : List Job
  weekly_costs : List RawCostEntry
  deriving Repr

/-- demo_data.py get_weekly_costs_by_job (lines 245-248): filter the
weekly costs to the job, sort by week_ending descending. -/
def demo_get_weekly_costs_by_job (s : Store) (job_id : String) : List RawCostEntry :=
  sortByWeekDesc (s.weekly_costs.filter (fun c => c.job_id == job_id))

/-- google_sheets.py get_weekly_costs_by_job (lines 341-360): filter the
weekly costs to the job, coerce the numeric columns to numbers with
unparseable cells becoming 0, sort by week_ending descending. -/
def gs_get_weekly_costs_by_job (s : Store) (job_id : String) : List RawCostEntry :=
  sortByWeekDesc ((s.weekly_costs.filter (fun c => c.job_id == job_id)).map gsCoerceEntry)

/-- demo_data.py get_job_cost_totals applied to the demo fetch. -/
def demo_get_job_cost_totals (s : Store) (job_id : String) : Except Unit CostTotals :=
  get_job_cost_totals (demo_get_weekly_costs_by_job s job_id)

/-- google_sheets.py get_job_cost_totals applied to the coercing fetch. -/
def gs_get_job_cost_totals (s : Store) (job_id : String) : Except Unit CostTotals :=
  get_job_cost_totals (gs_get_weekly_costs_by_job s job_id)

/-- The cost_data payload the Cost Entry form passes to
upsert_weekly_cost (3_Cost_Entry.py lines 152-166): the key pair, the
seven actual fields and the notes.  It carries no id and no created_at
key, so a dict update with it cannot touch those fields. -/
structure CostData where
  job_id : String
  week_ending : String
  insurance_actual : Option PyVal
  labor_actual : Option PyVal
  stamps_actual : Option PyVal
  material_actual : Option PyVal
  subs_bond_actual : Option PyVal
  equipment_actual : Option PyVal
  man_days_actual : Option PyVal
  notes : String
  deriving DecidableEq, Repr

/-- The stored row matches the payload key (job_id, week_ending) under
string equality. -/
def entryMatches (d : CostData) (c : RawCostEntry) : Bool :=
  keyMatches d.job_id d.week_ending c

/-- Merging the payload into an existing row (dict.update in
demo_data.py line 265; the masked column writes skipping id in
google_sheets.py lines 393-395): every payload field overwrites, id and
created_at stay. -/
def applyCostData (d : CostData) (c : RawCostEntry) : RawCostEntry :=
  { c with
    job_id := d.job_id
    week_ending := d.week_ending
    insurance_actual := d.insurance_actual
    labor_actual := d.labor_actual
    stamps_actual := d.stamps_actual
    material_actual := d.material_actual
    subs_bond_actual := d.subs_bond_actual
    equipment_actual := d.equipment_actual
    man_days_actual := d.man_days_actual
    notes := d.notes }

/-- A fresh row built from the payload on the insert path, with the
generated id and created_at stamp. -/
def newEntry (d : CostData) (newId newCreatedAt : String) : RawCostEntry :=
  ⟨newId, d.job_id, d.week_ending, d.insurance_actual, d.labor_actual,
   d.stamps_actual, d.material_actual, d.subs_bond_actual, d.equipment_actual,
   d.man_days_actual, d.notes, newCreatedAt⟩

/-- The payload-visible fields of a stored row, for stating that a row
equals the upsert input. -/
def dataFields (c : RawCostEntry) : CostData :=
  ⟨c.job_id, c.week_ending, c.insurance_actual, c.labor_actual,
   c.stamps_actual, c.material_actual, c.subs_bond_actual, c.equipment_actual,
   c.man_days_actual, c.notes⟩

/-- demo_data.py upsert_weekly_cost (lines 257-272): walk the list, and
at the first row whose key matches, merge the payload in place; if no
row matches, append a fresh row at the end.  The generated id and
created_at stamp are passed as arguments. -/
def demo_upsert_weekly_cost (store : List RawCostEntry) (d : CostData)
    (newId newCreatedAt : String) : List RawCostEntry :=
  match store with
  | [] => [newEntry d newId newCreatedAt]
  | c :: cs =>
      if entryMatches d c then applyCostData d c :: cs
      else c :: demo_upsert_weekly_cost cs d newId newCreatedAt

/-- google_sheets.py upsert_weekly_cost (lines 372-405): on an empty
sheet, append a fresh row; otherwise, if any row matches the key, write
the payload columns into every matching row; else append a fresh row. -/
def gs_upsert_weekly_cost (store : List RawCostEntry) (d : CostData)
    (newId newCreatedAt : String) : List RawCostEntry :=
  if store.isEmpty then [newEntry d newId newCreatedAt]
  else if store.any (entryMatches d) then
    store.map (fun c => if entryMatches d c then applyCostData d c else c)
  else store ++ [newEntry d newId newCreatedAt]

/-- Number of stored rows whose key equals (j, w). -/
def countKey (store : List RawCostEntry) (j w : String) : ℕ :=
  (store.filter (keyMatches j w)).length

/-- The central consistency invariant: at most one weekly cost row per
(job_id, week_ending) pair. -/
def atMostOnePerKey (store : List RawCostEntry) : Prop :=
  ∀ j w, countKey store j w ≤ 1

/-- delete_job (demo_data.py lines 235-239; google_sheets.py lines
323-335 does the same row-dropping on the two sheets): drop the job row
and every weekly cost row referencing it. -/
def delete_job (s : Store) (job_id : String) : Store :=
  { s with
    jobs := s.jobs.filter (fun j => !(j.id == job_id))
    weekly_costs := s.weekly_costs.filter (fun c => !(c.job_id == job_id)) }

/-- A job row as returned by get_all_jobs: the job together with the
attached customers field (the joined customer name, or None). -/
structure JoinedJob where
  job : Job
  customers : Option String
  deriving DecidableEq, Repr

/-- Lookup in a Python dict comprehension keyed by id: when several
records share an id the last one wins. -/
def dictById (cs : List Customer) (k : String) : Option Customer :=
  cs.foldl (fun acc c => if c.id == k then some c else acc) none

/-- demo_data.py get_all_jobs (lines 197-209): the lookup dict is built
from the raw customers list, soft-deleted customers included. -/
def demo_get_all_jobs (s : Store) : List JoinedJob :=
  s.jobs.map (fun j =>
    match dictById s.customers j.customer_id with
    | some c => ⟨j, some c.name⟩
    | none => ⟨j, none⟩)

/-- google_sheets.py get_all_customers (lines 132-143) keeps only rows
whose is_active cell is not a false marker; on boolean cells that is the
active ones. -/
def gs_get_all_customers (cs : List Customer) : List Customer :=
  cs.filter (fun c => c.is_active)

/-- google_sheets.py get_all_jobs (lines 249-276): the lookup dict is
built from get_all_customers, so soft-deleted customers never join. -/
def gs_get_all_jobs (s : Store) : List JoinedJob :=
  s.jobs.map (fun j =>
    match dictById (gs_get_all_customers s.customers) j.customer_id with
    | some c => ⟨j, some c.name⟩
    | none => ⟨j, none⟩)

/-- Revenue of one job as summed by the Customer Summary report
(6_Reports.py line 200). -/
def jobRevenue (j : Job) : ℚ := j.contract_amount + j.approved_change_orders

/-- The jobs the Customer Summary report assigns to one customer
(6_Reports.py line 199): customer_id matches by string equality. -/
def customer_jobs (jobs : List Job) (c : Customer) : List Job :=
  jobs.filter (fun j => j.customer_id == c.id)

/-- Per-customer total revenue in the Customer Summary report. -/
def customer_total_revenue (jobs : List Job) (c : Customer) : ℚ :=
  ((customer_jobs jobs c).map jobRevenue).sum

/-- A job resolves against the customer list when some listed customer
has its customer_id. -/
def resolvable (customers : List Customer) (j : Job) : Bool :=
  customers.any (fun c => j.customer_id == c.id)

/-! ## Aggregation lemmas -/

theorem pyFloatOrZero_clean (v : Option PyVal) (h : cleanVal v = true) :
    pyFloatOrZero v = Except.ok (valOr0 v) := by
  match v with
  | none => rfl
  | some (PyVal.num q) => rfl
  | some (PyVal.numStr q) => rfl
  | some PyVal.badStr => simp [cleanVal] at h
  | some PyVal.emptyStr => rfl
  | some PyVal.null => rfl

theorem sumFloats_clean (vs : List (Option PyVal))
    (h : ∀ v ∈ vs, cleanVal v = true) :
    sumFloats vs = Except.ok ((vs.map valOr0).sum) := by
  induction vs with
  | nil => rfl
  | cons v vs ih =>
      rw [sumFloats, pyFloatOrZero_clean v (h v (List.mem_cons_self v vs)),
        ih (fun x hx => h x (List.mem_cons_of_mem v hx))]
      rfl

theorem sumManDays_clean (vs : List (Option PyVal))
    (h : ∀ v ∈ vs, cleanVal v = true) :
    sumManDays vs = Except.ok ((vs.map (fun v => pyInt (valOr0 v))).sum) := by
  induction vs with
  | nil => rfl
  | cons v vs ih =>
      rw [sumManDays, pyFloatOrZero_clean v (h v (List.mem_cons_self v vs)),
        ih (fun x hx => h x (List.mem_cons_of_mem v hx))]
      rfl

theorem cleanEntry_fields (c : RawCostEntry) (h : cleanEntry c = true) :
    cleanVal c.insurance_actual = true ∧ cleanVal c.labor_actual = true ∧
    cleanVal c.stamps_actual = true ∧ cleanVal c.material_actual = true ∧
    cleanVal c.subs_bond_actual = true ∧ cleanVal c.equipment_actual = true ∧
    cleanVal c.man_days_actual = true := by
  simp only [cleanEntry, Bool.and_eq_true] at h
  exact ⟨h.1.1.1.1.1.1, h.1.1.1.1.1.2, h.1.1.1.1.2, h.1.1.1.2, h.1.1.2, h.1.2, h.2⟩

theorem sumFloats_field (costs : List RawCostEntry) (f : RawCostEntry → Option PyVal)
    (h : ∀ c ∈ costs, cleanVal (f c) = true) :
    sumFloats (costs.map f) = Except.ok ((costs.map (fun c => valOr0 (f c))).sum) := by
  rw [sumFloats_clean _ (fun v hv => by
    obtain ⟨c, hc, rfl⟩ := List.mem_map.mp hv
    exact h c hc)]
  rw [List.map_map]
  rfl

/-- Aggregation on a list of clean entries (no non-numeric nonempty
string in any actual field) succeeds and returns the per-category sums,
the summed per-entry integer truncation of man_days, and a total that
adds exactly the six monetary categories. -/
theorem get_job_cost_totals_clean (costs : List RawCostEntry)
    (h : ∀ c ∈ costs, cleanEntry c = true) :
    get_job_cost_totals costs = Except.ok
      ⟨(costs.map (fun c => valOr0 c.insurance_actual)).sum,
       (costs.map (fun c => valOr0 c.labor_actual)).sum,
       (costs.map (fun c => valOr0 c.stamps_actual)).sum,
       (costs.map (fun c => valOr0 c.material_actual)).sum,
       (costs.map (fun c => valOr0 c.subs_bond_actual)).sum,
       (costs.map (fun c => valOr0 c.equipment_actual)).sum,
       (costs.map (fun c => pyInt (valOr0 c.man_days_actual))).sum,
       (costs.map (fun c => valOr0 c.insurance_actual)).sum +
         (costs.map (fun c => valOr0 c.labor_actual)).sum +
         (costs.map (fun c => valOr0 c.stamps_actual)).sum +
         (costs.map (fun c => valOr0 c.material_actual)).sum +
         (costs.map (fun c => valOr0 c.subs_bond_actual)).sum +
         (costs.map (fun c => valOr0 c.equipment_actual)).sum⟩ := by
  match costs with
  | [] => simp [get_job_cost_totals]
  | c :: cs =>
      rw [get_job_cost_totals]
      rw [if_neg (by simp)]
      rw [sumFloats_field _ _ (fun x hx => (cleanEntry_fields x (h x hx)).1),
        sumFloats_field _ _ (fun x hx => (cleanEntry_fields x (h x hx)).2.1),
        sumFloats_field _ _ (fun x hx => (cleanEntry_fields x (h x hx)).2.2.1),
        sumFloats_field _ _ (fun x hx => (cleanEntry_fields x (h x hx)).2.2.2.1),
        sumFloats_field _ _ (fun x hx => (cleanEntry_fields x (h x hx)).2.2.2.2.1),
        sumFloats_field _ _ (fun x hx => (cleanEntry_fields x (h x hx)).2.2.2.2.2.1)]
      rw [show (c :: cs).map (fun x => x.man_days_actual)
            = ((c :: cs).map (fun x => x.man_days_actual)) from rfl]
      rw [sumManDays_clean _ (fun v hv => by
        obtain ⟨x, hx, rfl⟩ := List.mem_map.mp hv
        exact (cleanEntry_fields x (h x hx)).2.2.2.2.2.2)]
      rw [List.map_map]
      rfl

/-! ## Theorems -/

/-- The three-way bucket an if-chain at 90 and 100 produces. -/
theorem status_bucket (p : ℚ) :
    (p ≤ 90 → (if p ≤ 90 then "🟢" else if p ≤ 100 then "🟡" else "🔴") = "🟢") ∧
    (90 < p → p ≤ 100 → (if p ≤ 90 then "🟢" else if p ≤ 100 then "🟡" else "🔴") = "🟡") ∧
    (100 < p → (if p ≤ 90 then "🟢" else if p ≤ 100 then "🟡" else "🔴") = "🔴") := by
  refine ⟨fun h1 => by simp [h1], fun h1 h2 => ?_, fun h1 => ?_⟩
  · rw [if_neg (not_le.mpr h1), if_pos h2]
  · rw [if_neg (not_le.mpr (lt_trans (by norm_num) h1)),
      if_neg (not_le.mpr h1)]

/-- C4: for every job with positive total budget, the Home page status
dot is computed from budget_used_pct = total_cost / total_budget * 100
and buckets as on_track (green) when the percentage is at most 90,
watch (yellow) when it is above 90 and at most 100, and over_budget
(red) when it is above 100. -/
theorem c4_status_indicator (job : Job) (c : ℚ) (hb : 0 < totalBudget job) :
    (homeJobRow job c).budget_pct = c / totalBudget job * 100 ∧
    ((homeJobRow job c).budget_pct ≤ 90 →
      (homeJobRow job c).status_indicator = "🟢") ∧
    (90 < (homeJobRow job c).budget_pct → (homeJobRow job c).budget_pct ≤ 100 →
      (homeJobRow job c).status_indicator = "🟡") ∧
    (100 < (homeJobRow job c).budget_pct →
      (homeJobRow job c).status_indicator = "🔴") := by
  have hpct : (homeJobRow job c).budget_pct = c / totalBudget job * 100 := by
    simp [homeJobRow, hb]
  have hst : (homeJobRow job c).status_indicator =
      (if (homeJobRow job c).budget_pct ≤ 90 then "🟢"
       else if (homeJobRow job c).budget_pct ≤ 100 then "🟡" else "🔴") := by
    simp [homeJobRow]
  refine ⟨hpct, ?_, ?_, ?_⟩
  · intro h1; rw [hst]; exact (status_bucket _).1 h1
  · intro h1 h2; rw [hst]; exact (status_bucket _).2.1 h1 h2
  · intro h1; rw [hst]; exact (status_bucket _).2.2 h1

/-- C4 witness: the boundary example of the spec, total_budget 1000 with
total_cost 900 is on_track and total_cost 1000 is watch. -/
theorem c4_status_indicator_witness :
    0 < totalBudget ⟨"1", "550", "J", "", 0, 0, 0, "active",
      1000, 0, 0, 0, 0, 0, 0⟩ ∧
    (homeJobRow ⟨"1", "550", "J", "", 0, 0, 0, "active",
      1000, 0, 0, 0, 0, 0, 0⟩ 900).status_indicator = "🟢" ∧
    (homeJobRow ⟨"1", "550", "J", "", 0, 0, 0, "active",
      1000, 0, 0, 0, 0, 0, 0⟩ 1000).status_indicator = "🟡" := by
  refine ⟨by norm_num [totalBudget], ?_, ?_⟩
  · exact (c4_status_indicator _ 900 (by norm_num [totalBudget])).2.1
      (by rw [(c4_status_indicator _ 900 (by norm_num [totalBudget])).1]
          norm_num [totalBudget])
  · exact (c4_status_indicator _ 1000 (by norm_num [totalBudget])).2.2.1
      (by rw [(c4_status_indicator _ 1000 (by norm_num [totalBudget])).1]
          norm_num [totalBudget])
      (by rw [(c4_status_indicator _ 1000 (by norm_num [totalBudget])).1]
          norm_num [totalBudget])

/-- C5: for nonnegative budget values (the data model makes every
budget field nonnegative), the per-category variance indicator is the
empty marker when the budget is 0, the red over_budget dot when actual
exceeds budget by more than 10 percent of budget, the yellow watch dot
when it exceeds budget by a positive amount of at most 10 percent, and
the green on_track dot when actual is at most budget. -/
theorem c5_variance_indicator (actual budget : ℚ) (hb : 0 ≤ budget) :
    (budget = 0 → get_variance_indicator actual budget = "") ∧
    (budget ≠ 0 →
      (actual - budget > budget * (1 / 10) →
        get_variance_indicator actual budget = "🔴") ∧
      (0 < actual - budget → actual - budget ≤ budget * (1 / 10) →
        get_variance_indicator actual budget = "🟡") ∧
      (actual ≤ budget → get_variance_indicator actual budget = "🟢")) := by
  unfold get_variance_indicator
  refine ⟨fun h => by simp [h], fun h => ⟨fun h1 => ?_, fun h1 h2 => ?_, fun h1 => ?_⟩⟩
  · rw [if_neg h]
    simp only []
    rw [if_pos h1]
  · rw [if_neg h]
    simp only []
    rw [if_neg (not_lt.mpr h2), if_pos h1]
  · have hb10 : (0 : ℚ) ≤ budget * (1 / 10) := by positivity
    have hv : actual - budget ≤ 0 := by linarith
    rw [if_neg h]
    simp only []
    rw [if_neg (not_lt.mpr (le_trans hv hb10)), if_neg (not_lt.mpr hv)]

/-- C5 witness: the spec boundary examples, budget 1000 with actual
1095 is watch, actual 1101 is over_budget, actual 1000 is on_track. -/
theorem c5_variance_indicator_witness :
    get_variance_indicator 1095 1000 = "🟡" ∧
    get_variance_indicator 1101 1000 = "🔴" ∧
    get_variance_indicator 1000 1000 = "🟢" := by
  refine ⟨?_, ?_, ?_⟩
  · exact ((c5_variance_indicator 1095 1000 (by norm_num)).2
      (by norm_num)).2.1 (by norm_num) (by norm_num)
  · exact ((c5_variance_indicator 1101 1000 (by norm_num)).2
      (by norm_num)).1 (by norm_num)
  · exact ((c5_variance_indicator 1000 1000 (by norm_num)).2
      (by norm_num)).2.2 (by norm_num)

/-- C3 counterexample: the Dashboard page does not guard profit on zero
revenue.  A job with contract_amount 0 and approved_change_orders 0 but
total cost 100 gets profit -100 (not 0) in the Dashboard job_metrics
loop, contradicting the claim that on every page profit is 0 when
total_revenue is 0. -/
theorem c3_dashboard_profit_counterexample :
    (dashboardJobMetrics ⟨"1", "550", "J", "", 0, 0, 0, "active",
      0, 0, 0, 0, 0, 0, 0⟩ 100).revenue = 0 ∧
    (dashboardJobMetrics ⟨"1", "550", "J", "", 0, 0, 0, "active",
      0, 0, 0, 0, 0, 0, 0⟩ 100).profit = -100 ∧
    ((-100 : ℚ) ≠ 0) := by
  refine ⟨?_, ?_, by norm_num⟩ <;> norm_num [dashboardJobMetrics, totalBudget]

/-- C3 amended: on both pages total_revenue is contract_amount plus
approved_change_orders and the margin percentage is profit over revenue
times 100, guarded to 0 on zero revenue; the zero-revenue profit guard
holds on the Home page only, while the Dashboard page computes profit
as total_revenue minus total_cost unconditionally, so a zero-revenue
job with cost shows the negated cost there. -/
theorem c3_profit_formulas (job : Job) (cost : ℚ) :
    (homeJobRow job cost).total_revenue
        = job.contract_amount + job.approved_change_orders ∧
    (dashboardJobMetrics job cost).revenue
        = job.contract_amount + job.approved_change_orders ∧
    (0 < (homeJobRow job cost).total_revenue →
      (homeJobRow job cost).profit = (homeJobRow job cost).total_revenue - cost ∧
      (homeJobRow job cost).profit_pct
        = (homeJobRow job cost).profit / (homeJobRow job cost).total_revenue * 100) ∧
    ((homeJobRow job cost).total_revenue = 0 →
      (homeJobRow job cost).profit = 0 ∧ (homeJobRow job cost).profit_pct = 0) ∧
    (dashboardJobMetrics job cost).profit
        = (dashboardJobMetrics job cost).revenue - cost ∧
    ((dashboardJobMetrics job cost).revenue = 0 →
      (dashboardJobMetrics job cost).profit_margin = 0 ∧
      (dashboardJobMetrics job cost).profit = -cost) := by
  refine ⟨by simp [homeJobRow], by simp [dashboardJobMetrics], ?_, ?_,
    by simp [dashboardJobMetrics], ?_⟩
  · intro h
    have h0 : 0 < job.contract_amount + job.approved_change_orders := by
      simpa [homeJobRow] using h
    constructor <;> simp [homeJobRow, h0]
  · intro h
    have h0 : job.contract_amount + job.approved_change_orders = 0 := by
      simpa [homeJobRow] using h
    constructor <;> simp [homeJobRow, h0]
  · intro h
    have h0 : job.contract_amount + job.approved_change_orders = 0 := by
      simpa [dashboardJobMetrics] using h
    constructor <;> simp [dashboardJobMetrics, h0]

/-- C3 witness: a concrete zero-revenue job with cost 100 has Home
profit 0 and margin 0 while the Dashboard profit is -100. -/
theorem c3_profit_formulas_witness :
    (homeJobRow ⟨"1", "550", "J", "", 0, 0, 0, "active",
      0, 0, 0, 0, 0, 0, 0⟩ 100).profit = 0 ∧
    (homeJobRow ⟨"1", "550", "J", "", 0, 0, 0, "active",
      0, 0, 0, 0, 0, 0, 0⟩ 100).profit_pct = 0 ∧
    (dashboardJobMetrics ⟨"1", "550", "J", "", 0, 0, 0, "active",
      0, 0, 0, 0, 0, 0, 0⟩ 100).profit = -100 := by
  have h := c3_profit_formulas ⟨"1", "550", "J", "", 0, 0, 0, "active",
      0, 0, 0, 0, 0, 0, 0⟩ 100
  have hrev : (homeJobRow ⟨"1", "550", "J", "", 0, 0, 0, "active",
      0, 0, 0, 0, 0, 0, 0⟩ 100).total_revenue = 0 := by
    rw [h.1]; norm_num
  have hdrev : (dashboardJobMetrics ⟨"1", "550", "J", "", 0, 0, 0, "active",
      0, 0, 0, 0, 0, 0, 0⟩ 100).revenue = 0 := by
    rw [h.2.1]; norm_num
  refine ⟨(h.2.2.2.1 hrev).1, (h.2.2.2.1 hrev).2, ?_⟩
  have := (h.2.2.2.2.2 hdrev).2
  simpa using this

theorem valOr0_gsCoerceVal (v : Option PyVal) :
    valOr0 (gsCoerceVal v) = valOr0 v := by
  match v with
  | none => rfl
  | some (PyVal.num q) => rfl
  | some (PyVal.numStr q) => rfl
  | some PyVal.badStr => rfl
  | some PyVal.emptyStr => rfl
  | some PyVal.null => rfl

theorem cleanVal_gsCoerceVal (v : Option PyVal) :
    cleanVal (gsCoerceVal v) = true := by
  match v with
  | none => rfl
  | some (PyVal.num q) => rfl
  | some (PyVal.numStr q) => rfl
  | some PyVal.badStr => rfl
  | some PyVal.emptyStr => rfl
  | some PyVal.null => rfl

theorem cleanEntry_gsCoerceEntry (c : RawCostEntry) :
    cleanEntry (gsCoerceEntry c) = true := by
  simp [cleanEntry, gsCoerceEntry, cleanVal_gsCoerceVal]

theorem mem_insertWeekDesc (c x : RawCostEntry) (l : List RawCostEntry) :
    x ∈ insertWeekDesc c l ↔ x = c ∨ x ∈ l := by
  induction l with
  | nil => simp [insertWeekDesc]
  | cons d ds ih =>
      rw [insertWeekDesc]
      by_cases h : c.week_ending < d.week_ending
      · rw [if_pos h]
        simp only [List.mem_cons, ih]
        tauto
      · rw [if_neg h]
        simp only [List.mem_cons]

theorem mem_sortByWeekDesc (l : List RawCostEntry) (x : RawCostEntry) :
    x ∈ sortByWeekDesc l ↔ x ∈ l := by
  induction l with
  | nil => simp [sortByWeekDesc]
  | cons c cs ih =>
      rw [sortByWeekDesc, List.foldr_cons, mem_insertWeekDesc]
      rw [sortByWeekDesc] at ih
      rw [ih]
      simp [eq_comm]

/-- C2: on entries whose actual cells are numbers, parseable strings,
missing, null or empty (missing and null contributing 0), aggregation
returns each of the six category fields as the arithmetic sum of the
corresponding actual column, man_days as the sum of the per-entry
integer truncations, total as the sum of exactly the six monetary
categories with man_days excluded, and on zero entries every field is 0
with no error. -/
theorem c2_aggregate_sums (costs : List RawCostEntry)
    (h : ∀ c ∈ costs, cleanEntry c = true) :
    get_job_cost_totals costs = Except.ok
      ⟨(costs.map (fun c => valOr0 c.insurance_actual)).sum,
       (costs.map (fun c => valOr0 c.labor_actual)).sum,
       (costs.map (fun c => valOr0 c.stamps_actual)).sum,
       (costs.map (fun c => valOr0 c.material_actual)).sum,
       (costs.map (fun c => valOr0 c.subs_bond_actual)).sum,
       (costs.map (fun c => valOr0 c.equipment_actual)).sum,
       (costs.map (fun c => pyInt (valOr0 c.man_days_actual))).sum,
       (costs.map (fun c => valOr0 c.insurance_actual)).sum +
         (costs.map (fun c => valOr0 c.labor_actual)).sum +
         (costs.map (fun c => valOr0 c.stamps_actual)).sum +
         (costs.map (fun c => valOr0 c.material_actual)).sum +
         (costs.map (fun c => valOr0 c.subs_bond_actual)).sum +
         (costs.map (fun c => valOr0 c.equipment_actual)).sum⟩ ∧
    get_job_cost_totals ([] : List RawCostEntry)
      = Except.ok ⟨0, 0, 0, 0, 0, 0, 0, 0⟩ :=
  ⟨get_job_cost_totals_clean costs h, by simp [get_job_cost_totals]⟩

/-- C2 witness: two concrete entries with a missing stamps cell, a null
material cell, a missing labor cell and a numeric-string man_days cell
aggregate to the expected sums, with total excluding man_days. -/
theorem c2_aggregate_sums_witness :
    get_job_cost_totals
      [⟨"1", "J", "2024-10-05", some (PyVal.num 10), some (PyVal.num 20),
        none, some PyVal.null, some (PyVal.num 7), some (PyVal.num 0),
        some (PyVal.num 3), "", "2024-10-05"⟩,
       ⟨"2", "J", "2024-09-28", some (PyVal.num 1), none,
        some (PyVal.num 2), some (PyVal.num 3), some (PyVal.num 4),
        some (PyVal.num 5), some (PyVal.numStr 4), "", ""⟩]
      = Except.ok ⟨11, 20, 2, 3, 11, 5, 7, 52⟩ := by
  rw [(c2_aggregate_sums
    [⟨"1", "J", "2024-10-05", some (PyVal.num 10), some (PyVal.num 20),
      none, some PyVal.null, some (PyVal.num 7), some (PyVal.num 0),
      some (PyVal.num 3), "", "2024-10-05"⟩,
     ⟨"2", "J", "2024-09-28", some (PyVal.num 1), none,
      some (PyVal.num 2), some (PyVal.num 3), some (PyVal.num 4),
      some (PyVal.num 5), some (PyVal.numStr 4), "", ""⟩]
    (by decide)).1]
  simp [valOr0, pyInt]
  norm_num

/-- C8 counterexample: the demo store aggregation raises on a
non-numeric nonempty string.  A single stored entry for job J whose
insurance_actual cell is an unparseable string makes
demo get_job_cost_totals propagate the float() error instead of
coercing the cell to 0. -/
theorem c8_demo_malformed_counterexample :
    demo_get_job_cost_totals
      ⟨[], [], [⟨"1", "J", "2024-10-05", some PyVal.badStr, some (PyVal.num 1),
        none, none, none, none, some (PyVal.num 2), "", "2024-10-05"⟩]⟩ "J"
      = Except.error () := by
  rfl

/-- C8 amended: the Google-Sheets aggregation pipeline never raises:
its fetch layer coerces every numeric column, so aggregation always
returns a totals record, and a cell that is missing, null, empty or
unparseable contributes 0 to its category sum.  The demo store treats
missing and null cells as 0 but its aggregation raises on a non-numeric
nonempty string. -/
theorem c8_gs_lenient :
    (∀ (s : Store) (jid : String),
      ∃ t, gs_get_job_cost_totals s jid = Except.ok t) ∧
    (∀ costs : List RawCostEntry,
      get_job_cost_totals (costs.map gsCoerceEntry) = Except.ok
        ⟨(costs.map (fun c => valOr0 c.insurance_actual)).sum,
         (costs.map (fun c => valOr0 c.labor_actual)).sum,
         (costs.map (fun c => valOr0 c.stamps_actual)).sum,
         (costs.map (fun c => valOr0 c.material_actual)).sum,
         (costs.map (fun c => valOr0 c.subs_bond_actual)).sum,
         (costs.map (fun c => valOr0 c.equipment_actual)).sum,
         (costs.map (fun c => pyInt (valOr0 c.man_days_actual))).sum,
         (costs.map (fun c => valOr0 c.insurance_actual)).sum +
           (costs.map (fun c => valOr0 c.labor_actual)).sum +
           (costs.map (fun c => valOr0 c.stamps_actual)).sum +
           (costs.map (fun c => valOr0 c.material_actual)).sum +
           (costs.map (fun c => valOr0 c.subs_bond_actual)).sum +
           (costs.map (fun c => valOr0 c.equipment_actual)).sum⟩) := by
  constructor
  · intro s jid
    rw [gs_get_job_cost_totals]
    exact ⟨_, get_job_cost_totals_clean _ (fun c hc => by
      rw [gs_get_weekly_costs_by_job, mem_sortByWeekDesc] at hc
      obtain ⟨c₀, hc₀, rfl⟩ := List.mem_map.mp hc
      exact cleanEntry_gsCoerceEntry c₀)⟩
  · intro costs
    rw [get_job_cost_totals_clean _ (fun c hc => by
      obtain ⟨c₀, hc₀, rfl⟩ := List.mem_map.mp hc
      exact cleanEntry_gsCoerceEntry c₀)]
    simp [List.map_map, Function.comp_def, gsCoerceEntry, valOr0_gsCoerceVal]

/-! ## Upsert lemmas -/

theorem countKey_le_length (s : List RawCostEntry) (j w : String) :
    countKey s j w ≤ s.length :=
  List.length_filter_le _ s

theorem countKey_entry (s : List RawCostEntry) (d : CostData) :
    countKey s d.job_id d.week_ending = (s.filter (entryMatches d)).length := rfl

theorem countKey_cons (c : RawCostEntry) (l : List RawCostEntry) (j w : String) :
    countKey (c :: l) j w = (if keyMatches j w c then 1 else 0) + countKey l j w := by
  rw [countKey, List.filter_cons]
  by_cases h : keyMatches j w c = true
  · rw [if_pos h, if_pos h, List.length_cons, countKey, Nat.add_comm]
  · rw [if_neg h, if_neg h, countKey, Nat.zero_add]

theorem entryMatches_newEntry (d : CostData) (i t : String) :
    entryMatches d (newEntry d i t) = true := by
  simp [entryMatches, keyMatches, newEntry]

theorem entryMatches_applyCostData (d : CostData) (c : RawCostEntry) :
    entryMatches d (applyCostData d c) = true := by
  simp [entryMatches, keyMatches, applyCostData]

theorem keyMatches_applyCostData (d : CostData) (c : RawCostEntry)
    (h : entryMatches d c = true) (j w : String) :
    keyMatches j w (applyCostData d c) = keyMatches j w c := by
  rw [entryMatches, keyMatches, Bool.and_eq_true, beq_iff_eq, beq_iff_eq] at h
  simp [keyMatches, applyCostData, h.1, h.2]

theorem demo_upsert_no_match (store : List RawCostEntry) (d : CostData)
    (i t : String) (h : ∀ c ∈ store, entryMatches d c = false) :
    demo_upsert_weekly_cost store d i t = store ++ [newEntry d i t] := by
  induction store with
  | nil => rfl
  | cons c cs ih =>
      have hc : entryMatches d c = false := h c (List.mem_cons_self c cs)
      simp only [demo_upsert_weekly_cost, hc, Bool.false_eq_true, if_false,
        List.cons_append, List.cons.injEq, true_and]
      exact ih (fun x hx => h x (List.mem_cons_of_mem c hx))

theorem demo_upsert_match_countKey (store : List RawCostEntry) (d : CostData)
    (i t : String) (e : RawCostEntry) (he : e ∈ store)
    (hm : entryMatches d e = true) (j w : String) :
    countKey (demo_upsert_weekly_cost store d i t) j w = countKey store j w := by
  induction store with
  | nil => simp at he
  | cons c cs ih =>
      by_cases hc : entryMatches d c = true
      · simp only [demo_upsert_weekly_cost, hc, if_true]
        rw [countKey_cons, countKey_cons, keyMatches_applyCostData d c hc]
      · have he' : e ∈ cs := by
          rcases List.mem_cons.mp he with h1 | h1
          · exact absurd (h1 ▸ hm) (by simp [hc])
          · exact h1
        simp only [demo_upsert_weekly_cost, hc, Bool.false_eq_true, if_false]
        rw [countKey_cons, countKey_cons, ih he']

theorem demo_upsert_filter_match (store : List RawCostEntry) (d : CostData)
    (i t : String) (hinv : atMostOnePerKey store) (e : RawCostEntry)
    (he : e ∈ store) (hm : entryMatches d e = true) :
    (demo_upsert_weekly_cost store d i t).filter (entryMatches d)
      = [applyCostData d e] := by
  induction store with
  | nil => simp at he
  | cons c cs ih =>
      by_cases hc : entryMatches d c = true
      · have hcs : cs.filter (entryMatches d) = [] := by
          have h1 := hinv d.job_id d.week_ending
          rw [countKey_cons] at h1
          rw [show keyMatches d.job_id d.week_ending c = entryMatches d c from rfl,
            hc, if_pos rfl] at h1
          have h2 : countKey cs d.job_id d.week_ending = 0 := by omega
          rw [countKey_entry] at h2
          exact List.length_eq_zero.mp h2
        have hec : e = c := by
          rcases List.mem_cons.mp he with h1 | h1
          · exact h1
          · exact absurd (List.mem_filter.mpr ⟨h1, hm⟩) (by simp [hcs])
        simp only [demo_upsert_weekly_cost, hc, if_true]
        rw [List.filter_cons, if_pos (entryMatches_applyCostData d c), hcs, hec]
      · have he' : e ∈ cs := by
          rcases List.mem_cons.mp he with h1 | h1
          · exact absurd (h1 ▸ hm) (by simp [hc])
          · exact h1
        have hinv' : atMostOnePerKey cs := by
          intro j w
          have h1 := hinv j w
          rw [countKey_cons] at h1
          omega
        simp only [demo_upsert_weekly_cost, hc, Bool.false_eq_true, if_false]
        rw [List.filter_cons, if_neg (by simp [hc]), ih hinv' he']

theorem demo_upsert_filter (store : List RawCostEntry) (d : CostData)
    (i t : String) (hinv : atMostOnePerKey store) :
    ∃ e, (demo_upsert_weekly_cost store d i t).filter (entryMatches d) = [e] ∧
      dataFields e = d := by
  by_cases h : store.any (entryMatches d) = true
  · obtain ⟨e, he, hm⟩ := List.any_eq_true.mp h
    exact ⟨applyCostData d e,
      demo_upsert_filter_match store d i t hinv e he hm, rfl⟩
  · have h' : ∀ c ∈ store, entryMatches d c = false := by
      intro c hc
      by_contra hcc
      exact h (List.any_eq_true.mpr ⟨c, hc, by simpa using hcc⟩)
    refine ⟨newEntry d i t, ?_, rfl⟩
    rw [demo_upsert_no_match store d i t h', List.filter_append,
      List.filter_eq_nil_iff.mpr (fun c hc => by simp [h' c hc]),
      List.filter_cons, if_pos (entryMatches_newEntry d i t)]
    rfl

theorem demo_upsert_atMostOne (store : List RawCostEntry) (d : CostData)
    (i t : String) (hinv : atMostOnePerKey store) :
    atMostOnePerKey (demo_upsert_weekly_cost store d i t) := by
  by_cases h : store.any (entryMatches d) = true
  · obtain ⟨e, he, hm⟩ := List.any_eq_true.mp h
    intro j w
    rw [demo_upsert_match_countKey store d i t e he hm]
    exact hinv j w
  · have h' : ∀ c ∈ store, entryMatches d c = false := by
      intro c hc
      by_contra hcc
      exact h (List.any_eq_true.mpr ⟨c, hc, by simpa using hcc⟩)
    intro j w
    rw [demo_upsert_no_match store d i t h', countKey, List.filter_append]
    by_cases hk : keyMatches j w (newEntry d i t) = true
    · have hj : d.job_id = j ∧ d.week_ending = w := by
        rw [keyMatches, newEntry] at hk
        simpa [Bool.and_eq_true, beq_iff_eq] using hk
      have h0 : store.filter (keyMatches j w) = [] := by
        refine List.filter_eq_nil_iff.mpr (fun c hc => ?_)
        have := h' c hc
        rw [entryMatches, hj.1, hj.2] at this
        simp [this]
      rw [h0, List.filter_cons, if_pos hk]
      simp
    · rw [List.filter_cons, if_neg hk]
      simpa [countKey] using hinv j w

theorem map_update_no_match (store : List RawCostEntry) (d : CostData)
    (h : ∀ c ∈ store, entryMatches d c = false) :
    store.map (fun c => if entryMatches d c then applyCostData d c else c)
      = store := by
  induction store with
  | nil => rfl
  | cons c cs ih =>
      rw [List.map_cons, if_neg (by simp [h c (List.mem_cons_self c cs)]),
        ih (fun x hx => h x (List.mem_cons_of_mem c hx))]

theorem gs_demo_upsert_eq (store : List RawCostEntry) (d : CostData)
    (i t : String) (hinv : atMostOnePerKey store) :
    gs_upsert_weekly_cost store d i t = demo_upsert_weekly_cost store d i t := by
  induction store with
  | nil => rfl
  | cons c cs ih =>
      rw [gs_upsert_weekly_cost, if_neg (by simp)]
      by_cases hc : entryMatches d c = true
      · have hcs : ∀ x ∈ cs, entryMatches d x = false := by
          intro x hx
          by_contra hxx
          have hxm : entryMatches d x = true := by simpa using hxx
          have h1 := hinv d.job_id d.week_ending
          rw [countKey_cons,
            show keyMatches d.job_id d.week_ending c = entryMatches d c from rfl,
            hc, if_pos rfl, countKey_entry] at h1
          have h2 : x ∈ cs.filter (entryMatches d) := List.mem_filter.mpr ⟨hx, hxm⟩
          have h3 : 0 < (cs.filter (entryMatches d)).length :=
            List.length_pos.mpr (List.ne_nil_of_mem h2)
          omega
        rw [if_pos (by simp [List.any_cons, hc]), List.map_cons, if_pos hc,
          map_update_no_match cs d hcs]
        simp only [demo_upsert_weekly_cost, hc, if_true]
      · have hinv' : atMostOnePerKey cs := by
          intro j w
          have h1 := hinv j w
          rw [countKey_cons] at h1
          omega
        by_cases hany : cs.any (entryMatches d) = true
        · rw [if_pos (by simp [List.any_cons, hc, hany]), List.map_cons,
            if_neg (by simp [hc])]
          have hcs_ne : cs ≠ [] := by
            intro hnil
            rw [hnil] at hany
            simp at hany
          have hgs : gs_upsert_weekly_cost cs d i t
              = cs.map (fun x => if entryMatches d x then applyCostData d x else x) := by
            rw [gs_upsert_weekly_cost, if_neg (by simpa using hcs_ne), if_pos hany]
          simp only [demo_upsert_weekly_cost, hc, Bool.false_eq_true, if_false]
          rw [← ih hinv', hgs]
        · have hall : ∀ x ∈ c :: cs, entryMatches d x = false := by
            intro x hx
            rcases List.mem_cons.mp hx with h1 | h1
            · rw [h1]; simpa using hc
            · by_contra hxx
              exact hany (List.any_eq_true.mpr ⟨x, h1, by simpa using hxx⟩)
          rw [if_neg (by
            intro hco
            obtain ⟨x, hx, hxm⟩ := List.any_eq_true.mp hco
            rw [hall x hx] at hxm
            exact absurd hxm (by simp))]
          rw [demo_upsert_no_match (c :: cs) d i t hall]

/-- C1: on a store with at most one weekly cost row per (job_id,
week_ending) key, upsert preserves the invariant, the Google-Sheets and
demo upserts agree, and upserting the same payload twice leaves exactly
one row for its key, whose payload-visible fields equal the input. -/
theorem c1_upsert_preserves_invariant (store : List RawCostEntry) (d : CostData)
    (i₁ t₁ i₂ t₂ : String) (hinv : atMostOnePerKey store) :
    atMostOnePerKey (demo_upsert_weekly_cost store d i₁ t₁) ∧
    gs_upsert_weekly_cost store d i₁ t₁ = demo_upsert_weekly_cost store d i₁ t₁ ∧
    countKey (demo_upsert_weekly_cost (demo_upsert_weekly_cost store d i₁ t₁) d i₂ t₂)
      d.job_id d.week_ending = 1 ∧
    (∃ e, (demo_upsert_weekly_cost (demo_upsert_weekly_cost store d i₁ t₁) d i₂ t₂).filter
        (entryMatches d) = [e] ∧ dataFields e = d) := by
  have hinv1 := demo_upsert_atMostOne store d i₁ t₁ hinv
  obtain ⟨e, hfe, hde⟩ :=
    demo_upsert_filter (demo_upsert_weekly_cost store d i₁ t₁) d i₂ t₂ hinv1
  refine ⟨hinv1, gs_demo_upsert_eq store d i₁ t₁ hinv, ?_, e, hfe, hde⟩
  rw [countKey_entry, hfe]
  rfl

/-- C1 witness: upserting the same payload twice into an empty store
leaves exactly one row for its key, and the Google-Sheets and demo
upserts agree on the first call. -/
theorem c1_upsert_preserves_invariant_witness :
    gs_upsert_weekly_cost [] ⟨"J", "2024-10-05", some (PyVal.num 100), none, none,
        none, none, none, some (PyVal.num 3), "n"⟩ "i1" "t1"
      = demo_upsert_weekly_cost [] ⟨"J", "2024-10-05", some (PyVal.num 100), none,
        none, none, none, none, some (PyVal.num 3), "n"⟩ "i1" "t1" ∧
    countKey
      (demo_upsert_weekly_cost
        (demo_upsert_weekly_cost [] ⟨"J", "2024-10-05", some (PyVal.num 100), none,
          none, none, none, none, some (PyVal.num 3), "n"⟩ "i1" "t1")
        ⟨"J", "2024-10-05", some (PyVal.num 100), none, none,
          none, none, none, some (PyVal.num 3), "n"⟩ "i2" "t2")
      "J" "2024-10-05" = 1 := by
  have h := c1_upsert_preserves_invariant []
    ⟨"J", "2024-10-05", some (PyVal.num 100), none, none,
      none, none, none, some (PyVal.num 3), "n"⟩ "i1" "t1" "i2" "t2"
    (fun j w => le_trans (countKey_le_length [] j w) (by simp))
  exact ⟨h.2.1, h.2.2.1⟩

/-- C6: upserting a payload whose key already has a stored row leaves
exactly one row for that key; that row is the old row with every
payload field (the seven actuals and the notes) overwritten by the
incoming values, and with its id and created_at unchanged; the
Google-Sheets and demo upserts agree. -/
theorem c6_upsert_overwrites_in_place (store : List RawCostEntry) (d : CostData)
    (i t : String) (e : RawCostEntry) (hinv : atMostOnePerKey store)
    (he : e ∈ store) (hm : entryMatches d e = true) :
    countKey (demo_upsert_weekly_cost store d i t) d.job_id d.week_ending = 1 ∧
    (demo_upsert_weekly_cost store d i t).filter (entryMatches d)
      = [applyCostData d e] ∧
    dataFields (applyCostData d e) = d ∧
    (applyCostData d e).id = e.id ∧
    (applyCostData d e).created_at = e.created_at ∧
    gs_upsert_weekly_cost store d i t = demo_upsert_weekly_cost store d i t := by
  have hf := demo_upsert_filter_match store d i t hinv e he hm
  refine ⟨?_, hf, rfl, rfl, rfl, gs_demo_upsert_eq store d i t hinv⟩
  rw [countKey_entry, hf]
  rfl

/-- C6 witness: a store holding one row for (J, 2024-10-05) with
labor_actual 100, upserted with the same key and labor_actual 150,
keeps exactly one row for that key, now carrying labor_actual 150 with
the original id and created_at. -/
theorem c6_upsert_overwrites_in_place_witness :
    countKey
      (demo_upsert_weekly_cost
        [⟨"id0", "J", "2024-10-05", none, some (PyVal.num 100), none, none,
          none, none, some (PyVal.num 2), "", "2024-10-05"⟩]
        ⟨"J", "2024-10-05", none, some (PyVal.num 150), none, none,
          none, none, some (PyVal.num 2), ""⟩ "i" "t")
      "J" "2024-10-05" = 1 ∧
    (demo_upsert_weekly_cost
        [⟨"id0", "J", "2024-10-05", none, some (PyVal.num 100), none, none,
          none, none, some (PyVal.num 2), "", "2024-10-05"⟩]
        ⟨"J", "2024-10-05", none, some (PyVal.num 150), none, none,
          none, none, some (PyVal.num 2), ""⟩ "i" "t").filter
      (entryMatches ⟨"J", "2024-10-05", none, some (PyVal.num 150), none, none,
          none, none, some (PyVal.num 2), ""⟩)
      = [⟨"id0", "J", "2024-10-05", none, some (PyVal.num 150), none, none,
          none, none, some (PyVal.num 2), "", "2024-10-05"⟩] := by
  have h := c6_upsert_overwrites_in_place
    [⟨"id0", "J", "2024-10-05", none, some (PyVal.num 100), none, none,
      none, none, some (PyVal.num 2), "", "2024-10-05"⟩]
    ⟨"J", "2024-10-05", none, some (PyVal.num 150), none, none,
      none, none, some (PyVal.num 2), ""⟩ "i" "t"
    ⟨"id0", "J", "2024-10-05", none, some (PyVal.num 100), none, none,
      none, none, some (PyVal.num 2), "", "2024-10-05"⟩
    (fun j w => le_trans
      (countKey_le_length [⟨"id0", "J", "2024-10-05", none, some (PyVal.num 100),
        none, none, none, none, some (PyVal.num 2), "", "2024-10-05"⟩] j w)
      (by simp))
    (List.mem_cons_self _ _) (by decide)
  exact ⟨h.1, h.2.1⟩

/-! ## Delete cascade and join -/

theorem filter_after_delete (wc : List RawCostEntry) (J K : String) (hK : K ≠ J) :
    (wc.filter (fun c => !(c.job_id == J))).filter (fun c => c.job_id == K)
      = wc.filter (fun c => c.job_id == K) := by
  rw [List.filter_filter]
  refine List.filter_congr (fun c _ => ?_)
  by_cases h : c.job_id == K
  · have hcK : c.job_id = K := beq_iff_eq.mp h
    have : (c.job_id == J) = false := beq_eq_false_iff_ne.mpr (hcK ▸ hK)
    simp [h, this]
  · simp [h]

theorem filter_deleted_key (wc : List RawCostEntry) (J : String) :
    (wc.filter (fun c => !(c.job_id == J))).filter (fun c => c.job_id == J)
      = [] := by
  rw [List.filter_filter]
  refine List.filter_eq_nil_iff.mpr (fun c _ => ?_)
  by_cases h : c.job_id == J <;> simp [h]

/-- C7: deleting a job removes its record and cascades to its weekly
costs, in both store implementations: afterwards the weekly cost list
of the deleted job is empty, the deleted id is absent from the joined
job list, and the weekly cost list of every other job is unchanged. -/
theorem c7_delete_job_cascades (s : Store) (J : String) :
    demo_get_weekly_costs_by_job (delete_job s J) J = [] ∧
    gs_get_weekly_costs_by_job (delete_job s J) J = [] ∧
    (∀ r ∈ demo_get_all_jobs (delete_job s J), r.job.id ≠ J) ∧
    (∀ r ∈ gs_get_all_jobs (delete_job s J), r.job.id ≠ J) ∧
    (∀ K, K ≠ J → demo_get_weekly_costs_by_job (delete_job s J) K
        = demo_get_weekly_costs_by_job s K) ∧
    (∀ K, K ≠ J → gs_get_weekly_costs_by_job (delete_job s J) K
        = gs_get_weekly_costs_by_job s K) := by
  refine ⟨?_, ?_, ?_, ?_, ?_, ?_⟩
  · rw [demo_get_weekly_costs_by_job, delete_job]
    rw [filter_deleted_key s.weekly_costs J]
    rfl
  · rw [gs_get_weekly_costs_by_job, delete_job]
    rw [filter_deleted_key s.weekly_costs J]
    rfl
  · intro r hr
    rw [demo_get_all_jobs, delete_job] at hr
    obtain ⟨j, hj, hrj⟩ := List.mem_map.mp hr
    have hjid : r.job = j := by
      rw [← hrj]
      cases dictById s.customers j.customer_id <;> rfl
    have hmem := (List.mem_filter.mp hj).2
    rw [hjid]
    intro hJ
    rw [hJ] at hmem
    simp at hmem
  · intro r hr
    rw [gs_get_all_jobs, delete_job] at hr
    obtain ⟨j, hj, hrj⟩ := List.mem_map.mp hr
    have hjid : r.job = j := by
      rw [← hrj]
      cases dictById (gs_get_all_customers s.customers) j.customer_id <;> rfl
    have hmem := (List.mem_filter.mp hj).2
    rw [hjid]
    intro hJ
    rw [hJ] at hmem
    simp at hmem
  · intro K hK
    rw [demo_get_weekly_costs_by_job, demo_get_weekly_costs_by_job, delete_job]
    rw [filter_after_delete s.weekly_costs J K hK]
  · intro K hK
    rw [gs_get_weekly_costs_by_job, gs_get_weekly_costs_by_job, delete_job]
    rw [filter_after_delete s.weekly_costs J K hK]

/-- C7 witness: deleting job 1 from a concrete two-job store empties
its weekly cost list and leaves the weekly cost list of job 2
unchanged. -/
theorem c7_delete_job_cascades_witness :
    demo_get_weekly_costs_by_job
      (delete_job ⟨[], [], [⟨"a", "1", "2024-10-05", none, none, none, none,
        none, none, none, "", ""⟩, ⟨"b", "2", "2024-10-05", none, none, none,
        none, none, none, none, "", ""⟩]⟩ "1") "1" = [] ∧
    demo_get_weekly_costs_by_job
      (delete_job ⟨[], [], [⟨"a", "1", "2024-10-05", none, none, none, none,
        none, none, none, "", ""⟩, ⟨"b", "2", "2024-10-05", none, none, none,
        none, none, none, none, "", ""⟩]⟩ "1") "2"
      = demo_get_weekly_costs_by_job ⟨[], [], [⟨"a", "1", "2024-10-05", none,
        none, none, none, none, none, none, "", ""⟩, ⟨"b", "2", "2024-10-05",
        none, none, none, none, none, none, none, "", ""⟩]⟩ "2" := by
  have h := c7_delete_job_cascades ⟨[], [], [⟨"a", "1", "2024-10-05", none,
    none, none, none, none, none, none, "", ""⟩, ⟨"b", "2", "2024-10-05",
    none, none, none, none, none, none, none, "", ""⟩]⟩ "1"
  exact ⟨h.1, h.2.2.2.2.1 "2" (by decide)⟩

/-- C10 counterexample: the two get_all_jobs joins differ on a job
referencing a soft-deleted customer.  With a single inactive customer
and one job pointing at it, the demo store attaches the customer name
while the Google-Sheets store attaches None. -/
theorem c10_soft_deleted_counterexample :
    demo_get_all_jobs ⟨[⟨"1", "Acme", false⟩],
        [⟨"7", "550", "Jb", "1", 0, 0, 0, "active", 0, 0, 0, 0, 0, 0, 0⟩], []⟩
      = [⟨⟨"7", "550", "Jb", "1", 0, 0, 0, "active", 0, 0, 0, 0, 0, 0, 0⟩,
          some "Acme"⟩] ∧
    gs_get_all_jobs ⟨[⟨"1", "Acme", false⟩],
        [⟨"7", "550", "Jb", "1", 0, 0, 0, "active", 0, 0, 0, 0, 0, 0, 0⟩], []⟩
      = [⟨⟨"7", "550", "Jb", "1", 0, 0, 0, "active", 0, 0, 0, 0, 0, 0, 0⟩,
          none⟩] ∧
    (some "Acme" ≠ (none : Option String)) := by
  refine ⟨rfl, rfl, by simp⟩

/-- C10 amended: the two joins agree on every store whose customers are
all active; they differ exactly on jobs referencing a soft-deleted
customer, where the demo join still attaches the name and the
Google-Sheets join attaches None. -/
theorem c10_join_equivalence (s : Store)
    (h : ∀ c ∈ s.customers, c.is_active = true) :
    gs_get_all_jobs s = demo_get_all_jobs s := by
  rw [gs_get_all_jobs, demo_get_all_jobs, gs_get_all_customers,
    List.filter_eq_self.mpr (fun c hc => by simp [h c hc])]

/-- C10 witness: on a concrete store with one active customer the two
joins return the same joined job list. -/
theorem c10_join_equivalence_witness :
    gs_get_all_jobs ⟨[⟨"1", "Acme", true⟩],
        [⟨"7", "550", "Jb", "1", 0, 0, 0, "active", 0, 0, 0, 0, 0, 0, 0⟩], []⟩
      = demo_get_all_jobs ⟨[⟨"1", "Acme", true⟩],
        [⟨"7", "550", "Jb", "1", 0, 0, 0, "active", 0, 0, 0, 0, 0, 0, 0⟩], []⟩ :=
  c10_join_equivalence _ (by decide)

/-! ## Customer roll-up -/

theorem sum_filter_disjoint (f : Job → ℚ) (p q : Job → Bool) (l : List Job)
    (h : ∀ j ∈ l, ¬(p j = true ∧ q j = true)) :
    ((l.filter (fun j => p j || q j)).map f).sum
      = ((l.filter p).map f).sum + ((l.filter q).map f).sum := by
  induction l with
  | nil => simp
  | cons a l ih =>
      have ha := h a (List.mem_cons_self a l)
      have ih' := ih (fun j hj => h j (List.mem_cons_of_mem a hj))
      by_cases hp : p a = true
      · have hq : q a = false := by
          by_contra hqq
          exact ha ⟨hp, by simpa using hqq⟩
        rw [List.filter_cons, List.filter_cons, List.filter_cons]
        rw [if_pos (by simp [hp]), if_pos hp, if_neg (by simp [hq])]
        simp only [List.map_cons, List.sum_cons, ih']
        ring
      · by_cases hq : q a = true
        · rw [List.filter_cons, List.filter_cons, List.filter_cons]
          rw [if_pos (by simp [hq]), if_neg (by simp [hp]), if_pos hq]
          simp only [List.map_cons, List.sum_cons, ih']
          ring
        · rw [List.filter_cons, List.filter_cons, List.filter_cons]
          rw [if_neg (by simp [hp, hq]), if_neg (by simp [hp]),
            if_neg (by simp [hq])]
          exact ih'

theorem sum_filter_le_sum (f : Job → ℚ) (p : Job → Bool) (l : List Job)
    (h : ∀ j ∈ l, 0 ≤ f j) :
    ((l.filter p).map f).sum ≤ (l.map f).sum := by
  induction l with
  | nil => simp
  | cons a l ih =>
      have ha := h a (List.mem_cons_self a l)
      have ih' := ih (fun j hj => h j (List.mem_cons_of_mem a hj))
      rw [List.filter_cons]
      by_cases hp : p a = true
      · rw [if_pos hp]
        simp only [List.map_cons, List.sum_cons]
        linarith
      · rw [if_neg hp]
        simp only [List.map_cons, List.sum_cons]
        linarith

/-- C9: with pairwise-distinct customer ids, the sum over customers of
the per-customer roll-up revenue equals the revenue sum over exactly
the jobs whose customer_id matches some listed customer; when every
job revenue is nonnegative (the data model makes the monetary fields
nonnegative) the cross-customer sum is at most the all-jobs revenue
sum, with equality when every job resolves. -/
theorem c9_customer_rollup (jobs : List Job) (customers : List Customer)
    (hdist : customers.Pairwise (fun a b => a.id ≠ b.id)) :
    (customers.map (customer_total_revenue jobs)).sum
      = ((jobs.filter (resolvable customers)).map jobRevenue).sum ∧
    ((∀ j ∈ jobs, 0 ≤ jobRevenue j) →
      (customers.map (customer_total_revenue jobs)).sum
        ≤ (jobs.map jobRevenue).sum) ∧
    ((∀ j ∈ jobs, resolvable customers j = true) →
      (customers.map (customer_total_revenue jobs)).sum
        = (jobs.map jobRevenue).sum) := by
  have hmain : (customers.map (customer_total_revenue jobs)).sum
      = ((jobs.filter (resolvable customers)).map jobRevenue).sum := by
    induction customers with
    | nil =>
        have h0 : jobs.filter (resolvable []) = [] :=
          List.filter_eq_nil_iff.mpr (fun j _ => by simp [resolvable])
        simp [h0]
    | cons c cs ih =>
        have hd : ∀ b ∈ cs, c.id ≠ b.id := (List.pairwise_cons.mp hdist).1
        have ih' := ih (List.pairwise_cons.mp hdist).2
        have hres : jobs.filter (resolvable (c :: cs))
            = jobs.filter (fun j => (j.customer_id == c.id) || resolvable cs j) := by
          refine List.filter_congr (fun j _ => ?_)
          rw [resolvable, List.any_cons]
          rfl
        rw [List.map_cons, List.sum_cons, hres,
          sum_filter_disjoint jobRevenue (fun j => j.customer_id == c.id)
            (resolvable cs) jobs (fun j _ hpq => ?_), ih']
        · rw [customer_total_revenue, customer_jobs]
        · obtain ⟨b, hb, hjb⟩ := List.any_eq_true.mp hpq.2
          exact hd b hb (beq_iff_eq.mp hpq.1 ▸ beq_iff_eq.mp hjb)
  refine ⟨hmain, fun hnn => ?_, fun hall => ?_⟩
  · rw [hmain]
    exact sum_filter_le_sum jobRevenue (resolvable customers) jobs hnn
  · rw [hmain, List.filter_eq_self.mpr hall]

/-- C9 witness: two customers, two resolvable jobs worth 100 and 50 and
one unresolvable job worth 7: the cross-customer sum equals the
resolvable-jobs sum 150 and is at most the all-jobs sum 157. -/
theorem c9_customer_rollup_witness :
    ([⟨"1", "A", true⟩, ⟨"2", "B", true⟩].map (customer_total_revenue
      [⟨"j1", "550", "X", "1", 100, 0, 0, "active", 0, 0, 0, 0, 0, 0, 0⟩,
       ⟨"j2", "551", "Y", "2", 50, 0, 0, "active", 0, 0, 0, 0, 0, 0, 0⟩,
       ⟨"j3", "552", "Z", "zzz", 7, 0, 0, "active", 0, 0, 0, 0, 0, 0, 0⟩])).sum
      = (([⟨"j1", "550", "X", "1", 100, 0, 0, "active", 0, 0, 0, 0, 0, 0, 0⟩,
          ⟨"j2", "551", "Y", "2", 50, 0, 0, "active", 0, 0, 0, 0, 0, 0, 0⟩,
          ⟨"j3", "552", "Z", "zzz", 7, 0, 0, "active", 0, 0, 0, 0, 0, 0, 0⟩].filter
            (resolvable [⟨"1", "A", true⟩, ⟨"2", "B", true⟩])).map jobRevenue).sum ∧
    ([⟨"1", "A", true⟩, ⟨"2", "B", true⟩].map (customer_total_revenue
      [⟨"j1", "550", "X", "1", 100, 0, 0, "active", 0, 0, 0, 0, 0, 0, 0⟩,
       ⟨"j2", "551", "Y", "2", 50, 0, 0, "active", 0, 0, 0, 0, 0, 0, 0⟩,
       ⟨"j3", "552", "Z", "zzz", 7, 0, 0, "active", 0, 0, 0, 0, 0, 0, 0⟩])).sum
      ≤ ([⟨"j1", "550", "X", "1", 100, 0, 0, "active", 0, 0, 0, 0, 0, 0, 0⟩,
          ⟨"j2", "551", "Y", "2", 50, 0, 0, "active", 0, 0, 0, 0, 0, 0, 0⟩,
          ⟨"j3", "552", "Z", "zzz", 7, 0, 0, "active", 0, 0, 0, 0, 0, 0, 0⟩].map
            jobRevenue).sum := by
  have h := c9_customer_rollup
    [⟨"j1", "550", "X", "1", 100, 0, 0, "active", 0, 0, 0, 0, 0, 0, 0⟩,
     ⟨"j2", "551", "Y", "2", 50, 0, 0, "active", 0, 0, 0, 0, 0, 0, 0⟩,
     ⟨"j3", "552", "Z", "zzz", 7, 0, 0, "active", 0, 0, 0, 0, 0, 0, 0⟩]
    [⟨"1", "A", true⟩, ⟨"2", "B", true⟩]
    (by simp [List.pairwise_cons])
  refine ⟨h.1, h.2.1 (fun j hj => ?_)⟩
  fin_cases hj <;> norm_num [jobRevenue]

end Elitewalls
